import Mathlib

/-!
# Verification of the redesignaciones-crub aggregation core

Shallow embedding, in Lean 4, of the data-aggregation/enrichment core of the
redesignaciones-crub repository:

* `src/crub_courses/services/course_team_service.py` (`CourseTeamService`):
  course detection, faculty/Huayca enrichment, match-rate statistics;
* `src/redesignaciones/services/designaciones.py` (`DesignacionesService`):
  designation/person/department groupings and the Huayca memo cache.

Raw spreadsheet/API rows are modelled as Lean structures whose fields are the
columns the Python code reads (`dict.get` with a default always finds the
field, so a structurally complete record with `""`/`0` defaults is the
faithful counterpart of a raw `dict`).  Python's ordered `dict` grouping is
modelled by first-seen key lists plus `List.filter`; `dict` lookup tables
built by overwriting assignment are modelled as function-valued left folds;
Python's stable ascending `list.sort` is modelled by `List.insertionSort`
(also a stable sort, hence extensionally identical on every input).
-/

/-- Characters removed by Python's `str.strip()` (ASCII whitespace; the
relevant data never contains other Unicode space). -/
def isPySpace (c : Char) : Bool :=
  c = ' ' || c = '\t' || c = '\n' || c = '\r' || c = '\x0b' || c = '\x0c'

/-- Python `str.strip()`: drop whitespace from both ends. -/
def pyStrip (s : String) : String :=
  ⟨((s.data.dropWhile isPySpace).reverse.dropWhile isPySpace).reverse⟩

/-- Lexicographic (code-point) comparison of character lists, the order
Python uses to compare `str` values. -/
def charsLe : List Char → List Char → Bool
  | [], _ => true
  | _ :: _, [] => false
  | a :: as, b :: bs => if a < b then true else if b < a then false else charsLe as bs

/-- Python's `<=` on strings: lexicographic on code points. -/
def strLe (a b : String) : Bool :=
  charsLe a.data b.data

/-- Keys of an insertion-ordered Python `dict`, built by iterating the list:
each key listed once, at the position of its first occurrence. -/
def firstSeen {α : Type} [DecidableEq α] : List α → List α
  | [] => []
  | a :: as => a :: (firstSeen as).filter (fun b => b ≠ a)

/-! ## Raw records (crub_courses and redesignaciones share the same sources)

One structure per source table, one field per column the Python code reads.
`materias_equipo` and `designaciones_docentes` rows carry string cells plus the
integer `id_redesignacion`; Huayca rows carry string cells plus the integers
`id_materia` and `ano_plan` (cf. `models/types.py`). -/

/-- A raw `materias_equipo` row (source A, assignment table). -/
structure RawAssignment where
  idRedesignacion : Int
  materia : String
  codSiu : String
  carrera : String
  ordenanza : String
  docente : String
  legajo : String
  categoria : String
  desig : String
  desde : String
  hasta : String
  lic : String
  modulo : String
  rol : String
  periodo : String
  estado : String
deriving DecidableEq, Repr

/-- A raw `designaciones_docentes` row (source A, designation table). -/
structure RawDesignacion where
  idRedesignacion : Int
  dDesig : String
  uniAcad : String
  anio : String
  norma : String
  cuerpo : String
  legajo : String
  documento : String
  cuil : String
  fechaIngreso : String
  apellidoYNombre : String
  sexo : String
  fechaNacim : String
  correos : String
  catMapuche : String
  catEstatuto : String
  dedicacion : String
  caracter : String
  desde : String
  hasta : String
  departamento : String
  area : String
  orientacion : String
  lsgh : String
  estado : String
deriving DecidableEq, Repr

/-- A raw Huayca `materias` row (source B, detail table). -/
structure RawHuayca where
  idMateria : Int
  nombreCarrera : String
  nombreMateria : String
  anoPlan : Int
  periodoPlan : String
  horasTotales : String
  horasSemanales : String
  deptoPrincipal : String
  depto : String
  area : String
  orientacion : String
  contenidosMinimos : String
  correlativasParaCursar : String
  correlativasParaAprobar : String
  competencias : String
  optativa : String
  trayecto : String
  codCarrera : String
  planGuarani : String
  versionGuarani : String
  planMocovi : String
  planOrdenanzas : String
  codGuarani : String
  observaciones : String
deriving DecidableEq, Repr

/-! ## crub_courses typed models (`models/core.py`) -/

/-- The five values of the `AcademicPeriod` enum. -/
def validPeriods : List String := ["1CUAT", "2CUAT", "ANUAL", "2BIMES2C", "MENSU"]

/-- The two values of the `FacultyRole` enum. -/
def validRoles : List String := ["Resp", "Aux"]

/-- Embedding of `FacultyDetails` (pydantic): the designation row minus `Estado`, which the
model does not declare (pydantic ignores the extra key). -/
structure FacultyDetails where
  idRedesignacion : Int
  dDesig : String
  uniAcad : String
  anio : String
  norma : String
  cuerpo : String
  legajo : String
  documento : String
  cuil : String
  fechaIngreso : String
  apellidoYNombre : String
  sexo : String
  fechaNacim : String
  correos : String
  catMapuche : String
  catEstatuto : String
  dedicacion : String
  caracter : String
  desde : String
  hasta : String
  departamento : String
  area : String
  orientacion : String
  lsgh : String
deriving DecidableEq, Repr

/-- Embedding of `FacultyDetails(**faculty_data)`: field-for-field copy of the raw row
(`Estado` dropped).  All declared fields are strings except the integer id,
so construction from a structurally complete row always succeeds. -/
def toFacultyDetails (r : RawDesignacion) : FacultyDetails :=
  { idRedesignacion := r.idRedesignacion, dDesig := r.dDesig, uniAcad := r.uniAcad
    anio := r.anio, norma := r.norma, cuerpo := r.cuerpo, legajo := r.legajo
    documento := r.documento, cuil := r.cuil, fechaIngreso := r.fechaIngreso
    apellidoYNombre := r.apellidoYNombre, sexo := r.sexo, fechaNacim := r.fechaNacim
    correos := r.correos, catMapuche := r.catMapuche, catEstatuto := r.catEstatuto
    dedicacion := r.dedicacion, caracter := r.caracter, desde := r.desde
    hasta := r.hasta, departamento := r.departamento, area := r.area
    orientacion := r.orientacion, lsgh := r.lsgh }

/-- Embedding of `TeamMember` (pydantic): an assignment row with `Rol`/`Período` validated
against their enums, plus the enrichment slot `personal_details`. -/
structure TeamMember where
  idRedesignacion : Int
  materia : String
  codSiu : String
  carrera : String
  ordenanza : String
  docente : String
  legajo : String
  categoria : String
  desig : String
  desde : String
  hasta : String
  lic : String
  modulo : String
  rol : String
  periodo : String
  estado : String
  personalDetails : Option FacultyDetails
deriving DecidableEq, Repr

/-- Embedding of `TeamMember(**assignment)` succeeds iff the row's `Rol` and `Período`
cells are valid enum values (the remaining declared fields are plain
strings/int, which always validate). -/
def validTeamMember (r : RawAssignment) : Bool :=
  r.rol ∈ validRoles && r.periodo ∈ validPeriods

/-- The `TeamMember` built from a raw assignment row (enrichment slot empty). -/
def toTeamMember (r : RawAssignment) : TeamMember :=
  { idRedesignacion := r.idRedesignacion, materia := r.materia, codSiu := r.codSiu
    carrera := r.carrera, ordenanza := r.ordenanza, docente := r.docente
    legajo := r.legajo, categoria := r.categoria, desig := r.desig
    desde := r.desde, hasta := r.hasta, lic := r.lic, modulo := r.modulo
    rol := r.rol, periodo := r.periodo, estado := r.estado, personalDetails := none }

/-- Embedding of `HuaycaCourseDetails` (pydantic): field-for-field copy of a Huayca row;
the `optativa` validator maps any string to `SI`/`NO`, so construction from a
structurally complete row always succeeds. -/
structure HuaycaCourseDetails where
  idMateria : Int
  nombreCarrera : String
  nombreMateria : String
  anoPlan : Int
  periodoPlan : String
  horasTotales : String
  horasSemanales : String
  deptoPrincipal : String
  depto : String
  area : String
  orientacion : String
  contenidosMinimos : String
  correlativasParaCursar : String
  correlativasParaAprobar : String
  competencias : String
  optativa : String
  trayecto : String
  codCarrera : String
  planGuarani : String
  versionGuarani : String
  planMocovi : String
  planOrdenanzas : String
  codGuarani : String
  observaciones : String
deriving DecidableEq, Repr

/-- The `optativa` validator of `HuaycaCourseDetails`: `"SI"` (handled
case-insensitively by `upper()`) maps to `SI`, anything else to `NO`. -/
def normalizeOptativa (s : String) : String :=
  if (s.data.map Char.toUpper) = "SI".data then "SI" else "NO"

/-- Embedding of `HuaycaCourseDetails(**huayca_data)`. -/
def toHuaycaCourseDetails (r : RawHuayca) : HuaycaCourseDetails :=
  { idMateria := r.idMateria, nombreCarrera := r.nombreCarrera
    nombreMateria := r.nombreMateria, anoPlan := r.anoPlan
    periodoPlan := r.periodoPlan, horasTotales := r.horasTotales
    horasSemanales := r.horasSemanales, deptoPrincipal := r.deptoPrincipal
    depto := r.depto, area := r.area, orientacion := r.orientacion
    contenidosMinimos := r.contenidosMinimos
    correlativasParaCursar := r.correlativasParaCursar
    correlativasParaAprobar := r.correlativasParaAprobar
    competencias := r.competencias, optativa := normalizeOptativa r.optativa
    trayecto := r.trayecto, codCarrera := r.codCarrera
    planGuarani := r.planGuarani, versionGuarani := r.versionGuarani
    planMocovi := r.planMocovi, planOrdenanzas := r.planOrdenanzas
    codGuarani := r.codGuarani, observaciones := r.observaciones }

/-- Embedding of `Course` (pydantic): unique per `(cod_siu, periodo)`, with its team and the
optional Huayca enrichment.  `periodo` is stored as the enum's string value. -/
structure Course where
  codSiu : String
  materia : String
  periodo : String
  carrera : String
  teamMembers : List TeamMember
  huaycaDetails : Option HuaycaCourseDetails
deriving DecidableEq, Repr

/-! ## `CourseTeamService` operations (`services/course_team_service.py`) -/

/-- The grouping key of `_group_assignments_by_course`:
`(assignment.get("Cod SIU", ""), assignment.get("Período", ""))`. -/
def recKey (r : RawAssignment) : String × String :=
  (r.codSiu, r.periodo)

/-- Embedding of `_group_assignments_by_course`: the insertion-ordered `defaultdict`
grouping `materias_equipo` rows by `(Cod SIU, Período)` — keys in first-seen
order, each group holding its rows in source order. -/
def groupAssignmentsByCourse (l : List RawAssignment) :
    List ((String × String) × List RawAssignment) :=
  (firstSeen (l.map recKey)).map (fun k => (k, l.filter (fun r => recKey r = k)))

/-- Failure modes of `detect_unique_courses`: the guard `ValueError` when the
assignment cache is `None`, and the pydantic `ValidationError` raised by
`Course(...)` when a group's non-empty `Período` is not a valid enum value. -/
inductive DetectError where
  | dataNotLoaded : DetectError
  | invalidPeriod : String → DetectError
deriving DecidableEq, Repr

/-- Embedding of `_build_course_objects`: iterate the groups in order; skip a group whose
`cod_siu` or `periodo` is empty; otherwise construct the `Course` (a non-empty
`periodo` outside the enum makes the pydantic constructor raise, aborting the
whole run) with the common fields of the group's first row and the team built
from the rows that validate as `TeamMember` (invalid rows are skipped). -/
def buildCourseObjects :
    List ((String × String) × List RawAssignment) → Except DetectError (List Course)
  | [] => .ok []
  | ((codSiu, periodo), g) :: rest =>
    if codSiu = "" ∨ periodo = "" then
      buildCourseObjects rest
    else if periodo ∈ validPeriods then
      (buildCourseObjects rest).map
        (fun cs =>
          { codSiu := codSiu
            materia := ((g.head?).map (fun r => r.materia)).getD ""
            periodo := periodo
            carrera := ((g.head?).map (fun r => r.carrera)).getD ""
            teamMembers := (g.filter validTeamMember).map toTeamMember
            huaycaDetails := none } :: cs)
    else
      .error (.invalidPeriod periodo)

/-- The lookup `dict` of `_enrich_with_faculty_details`, built by iterating
`designaciones_docentes` and overwriting on duplicate non-empty `D Desig`
keys; modelled as the function the finished `dict` computes. -/
def buildFacultyLookup (ds : List RawDesignacion) : String → Option RawDesignacion :=
  ds.foldl
    (fun acc d => if d.dDesig ≠ "" then (fun k => if k = d.dDesig then some d else acc k) else acc)
    (fun _ => none)

/-- The body of the enrichment loop of `_enrich_with_faculty_details` for one
team member: look up `member.desig`; on a hit attach the `FacultyDetails`
built from the row, on a miss leave the member untouched. -/
def enrichMember (look : String → Option RawDesignacion) (m : TeamMember) : TeamMember :=
  match look m.desig with
  | some f => { m with personalDetails := some (toFacultyDetails f) }
  | none => m

/-- Embedding of `_enrich_with_faculty_details`: no designation data means no enrichment
(warning only); otherwise every team member of every course goes through the
lookup.  The in-place mutation is modelled as a pure rewrite of the list. -/
def enrichWithFacultyDetails (ds : Option (List RawDesignacion)) (cs : List Course) :
    List Course :=
  match ds with
  | none => cs
  | some ds =>
    cs.map (fun c => { c with teamMembers := c.teamMembers.map (enrichMember (buildFacultyLookup ds)) })

/-- The lookup `dict` of `_enrich_with_huayca_details`, keyed by non-empty
`cod_guarani` (no stripping in this service), overwriting on duplicates. -/
def buildHuaycaLookup (hs : List RawHuayca) : String → Option RawHuayca :=
  hs.foldl
    (fun acc h => if h.codGuarani ≠ "" then (fun k => if k = h.codGuarani then some h else acc k) else acc)
    (fun _ => none)

/-- Embedding of `_enrich_with_huayca_details`: look up each course's own `cod_siu` in the
`cod_guarani` table; attach on hit, skip on miss; absent data is a no-op. -/
def enrichWithHuaycaDetails (hs : Option (List RawHuayca)) (cs : List Course) :
    List Course :=
  match hs with
  | none => cs
  | some hs =>
    cs.map (fun c =>
      match buildHuaycaLookup hs c.codSiu with
      | some h => { c with huaycaDetails := some (toHuaycaCourseDetails h) }
      | none => c)

/-- The three data caches of `CourseTeamService` (each `None` until
`refresh_data` stores the fetched rows). -/
structure ServiceState where
  materiasEquipoCache : Option (List RawAssignment)
  designacionesCache : Option (List RawDesignacion)
  huaycaCache : Option (List RawHuayca)

/-- Embedding of `detect_unique_courses`: guard on the unloaded cache (a `ValueError`, with
no fetch attempted — the function has no access to the API clients at all),
then group, build, and run both enrichment passes. -/
def detect_unique_courses (s : ServiceState) : Except DetectError (List Course) :=
  match s.materiasEquipoCache with
  | none => .error .dataNotLoaded
  | some mat =>
    match buildCourseObjects (groupAssignmentsByCourse mat) with
    | .ok courses =>
      .ok (enrichWithHuaycaDetails s.huaycaCache (enrichWithFacultyDetails s.designacionesCache courses))
    | .error e => .error e

/-- Embedding of `_calculate_faculty_match_rate`: the percentage of assignment rows whose
`Desig` occurs among the `D Desig` values of the designation rows; `0.0` when
either cache is `None` or empty (`if not ...`). -/
def calculateFacultyMatchRate (mat : Option (List RawAssignment))
    (ds : Option (List RawDesignacion)) : ℚ :=
  match mat, ds with
  | some m, some d =>
    if m = [] ∨ d = [] then 0
    else
      ((m.filter (fun a => a.desig ∈ d.map (fun x => x.dDesig))).length : ℚ) / m.length * 100
  | _, _ => 0

/-- Embedding of `_calculate_huayca_match_rate`: the percentage of distinct assignment
`Cod SIU` values found among `str(id_materia)` of the Huayca rows (note: the
`id_materia` column, not the `cod_guarani` key that enrichment uses); `0.0`
when either cache is `None` or empty. -/
def calculateHuaycaMatchRate (mat : Option (List RawAssignment))
    (hs : Option (List RawHuayca)) : ℚ :=
  match mat, hs with
  | some m, some h =>
    if m = [] ∨ h = [] then 0
    else
      let availableIds := h.map (fun x => toString x.idMateria)
      let uniqueCodes := firstSeen (m.map (fun a => a.codSiu))
      ((uniqueCodes.filter (fun c => c ∈ availableIds)).length : ℚ) / uniqueCodes.length * 100
  | _, _ => 0

/-- All team members of a course list, in course order (the "union of the
returned team members"). -/
def allTeamMembers (cs : List Course) : List TeamMember :=
  (cs.map (fun c => c.teamMembers)).flatten

/-- The `(cod_siu, periodo)` identity of a derived course. -/
def courseKey (c : Course) : String × String :=
  (c.codSiu, c.periodo)

/-! ## `DesignacionesService` (`redesignaciones/services/designaciones.py`)

The processed records are `TypedDict`s (plain dicts, no validation), so every
conversion is total. -/

/-- Embedding of `HuaycaMateriaDetalle`: Huayca row copied field-for-field (the
`optativa` cell stays a plain string here). -/
structure HuaycaMateriaDetalle where
  idMateria : Int
  nombreCarrera : String
  nombreMateria : String
  anoPlan : Int
  periodoPlan : String
  horasTotales : String
  horasSemanales : String
  deptoPrincipal : String
  depto : String
  area : String
  orientacion : String
  contenidosMinimos : String
  correlativasParaCursar : String
  correlativasParaAprobar : String
  competencias : String
  optativa : String
  trayecto : String
  codCarrera : String
  planGuarani : String
  versionGuarani : String
  planMocovi : String
  planOrdenanzas : String
  codGuarani : String
  observaciones : String
deriving DecidableEq, Repr

/-- The detail attached by `_convert_materia_record` on a lookup hit. -/
def toHuaycaMateriaDetalle (r : RawHuayca) : HuaycaMateriaDetalle :=
  { idMateria := r.idMateria, nombreCarrera := r.nombreCarrera
    nombreMateria := r.nombreMateria, anoPlan := r.anoPlan
    periodoPlan := r.periodoPlan, horasTotales := r.horasTotales
    horasSemanales := r.horasSemanales, deptoPrincipal := r.deptoPrincipal
    depto := r.depto, area := r.area, orientacion := r.orientacion
    contenidosMinimos := r.contenidosMinimos
    correlativasParaCursar := r.correlativasParaCursar
    correlativasParaAprobar := r.correlativasParaAprobar
    competencias := r.competencias, optativa := r.optativa
    trayecto := r.trayecto, codCarrera := r.codCarrera
    planGuarani := r.planGuarani, versionGuarani := r.versionGuarani
    planMocovi := r.planMocovi, planOrdenanzas := r.planOrdenanzas
    codGuarani := r.codGuarani, observaciones := r.observaciones }

/-- Embedding of `MateriaAsignada`: a converted `materias_equipo` row with the optional
Huayca detail. -/
structure MateriaAsignada where
  idRedesignacionMateria : Int
  materiaNombre : String
  codSiu : String
  carrera : String
  ordenanza : String
  docente : String
  categoria : String
  desde : String
  hasta : String
  lic : String
  modulo : String
  rol : String
  periodo : String
  estadoMateria : String
  materiaDetalle : Option HuaycaMateriaDetalle
deriving DecidableEq, Repr

/-- Embedding of `DocenteDesignacion`: a converted designation row plus its linked
materias. -/
structure DocenteDesignacion where
  idRedesignacion : Int
  dDesig : String
  uniAcad : String
  anio : String
  norma : String
  cuerpo : String
  legajo : String
  documento : String
  cuil : String
  fechaIngreso : String
  apellidoYNombre : String
  sexo : String
  fechaNacim : String
  correos : String
  catMapuche : String
  catEstatuto : String
  dedicacion : String
  caracter : String
  desde : String
  hasta : String
  departamento : String
  area : String
  orientacion : String
  lsgh : String
  estado : String
  materias : List MateriaAsignada
deriving DecidableEq, Repr, Inhabited

/-- Embedding of `_convert_designacion_record`: field-for-field copy of the raw row with
an empty `materias` list. -/
def convertDesignacionRecord (r : RawDesignacion) : DocenteDesignacion :=
  { idRedesignacion := r.idRedesignacion, dDesig := r.dDesig, uniAcad := r.uniAcad
    anio := r.anio, norma := r.norma, cuerpo := r.cuerpo, legajo := r.legajo
    documento := r.documento, cuil := r.cuil, fechaIngreso := r.fechaIngreso
    apellidoYNombre := r.apellidoYNombre, sexo := r.sexo, fechaNacim := r.fechaNacim
    correos := r.correos, catMapuche := r.catMapuche, catEstatuto := r.catEstatuto
    dedicacion := r.dedicacion, caracter := r.caracter, desde := r.desde
    hasta := r.hasta, departamento := r.departamento, area := r.area
    orientacion := r.orientacion, lsgh := r.lsgh, estado := r.estado, materias := [] }

/-- Embedding of `_create_huayca_lookup`: `dict` keyed by the *stripped*, non-empty
`cod_guarani`, overwriting on duplicates. -/
def createHuaycaLookup (hs : List RawHuayca) : String → Option RawHuayca :=
  hs.foldl
    (fun acc h =>
      if pyStrip h.codGuarani ≠ "" then
        (fun k => if k = pyStrip h.codGuarani then some h else acc k)
      else acc)
    (fun _ => none)

/-- Embedding of `_convert_materia_record`: strip `Cod SIU`, look it up in the Huayca
table, attach the detail on a hit. -/
def convertMateriaRecord (look : String → Option RawHuayca) (r : RawAssignment) :
    MateriaAsignada :=
  { idRedesignacionMateria := r.idRedesignacion, materiaNombre := r.materia
    codSiu := pyStrip r.codSiu, carrera := r.carrera, ordenanza := r.ordenanza
    docente := r.docente, categoria := r.categoria, desde := r.desde
    hasta := r.hasta, lic := r.lic, modulo := r.modulo, rol := r.rol
    periodo := r.periodo, estadoMateria := r.estado
    materiaDetalle := (look (pyStrip r.codSiu)).map toHuaycaMateriaDetalle }

/-- Embedding of `DesignacionesSummary` (counts plus the designation list). -/
structure DesignacionesSummary where
  totalDesignaciones : Nat
  totalDocentes : Nat
  totalMateriasAsignadas : Nat
  designaciones : List DocenteDesignacion
deriving DecidableEq, Repr

/-- The `materias_by_desig` table of `get_designaciones_with_materias`: rows
with a non-empty stripped `Desig` are converted and grouped under that key in
source order; any other key reads as the empty list (a `dict` miss). -/
def materiasByDesig (look : String → Option RawHuayca) (mr : List RawAssignment)
    (k : String) : List MateriaAsignada :=
  if k = "" then []
  else (mr.filter (fun r => pyStrip r.desig = k)).map (convertMateriaRecord look)

/-- Embedding of `get_designaciones_with_materias`: convert every designation row in
order and attach the materias grouped under its stripped `D Desig` (a miss
leaves the empty list from the conversion). -/
def getDesignacionesWithMaterias (dr : List RawDesignacion) (mr : List RawAssignment)
    (hr : List RawHuayca) : DesignacionesSummary :=
  let look := createHuaycaLookup hr
  let designaciones := dr.map (fun rec =>
    { convertDesignacionRecord rec with
        materias := materiasByDesig look mr (pyStrip rec.dDesig) })
  { totalDesignaciones := designaciones.length
    totalDocentes := designaciones.length
    totalMateriasAsignadas := (designaciones.map (fun d => d.materias.length)).sum
    designaciones := designaciones }

/-- Embedding of `DocenteProfile`: the person-centric aggregate. -/
structure DocenteProfile where
  apellidoYNombre : String
  legajo : String
  documento : String
  cuil : String
  sexo : String
  fechaNacim : String
  correos : String
  totalDesignaciones : Nat
  totalMaterias : Nat
  designaciones : List DocenteDesignacion
deriving DecidableEq, Repr

/-- Embedding of `DocentesSummary`. -/
structure DocentesSummary where
  totalDocentes : Nat
  totalDesignaciones : Nat
  totalMateriasAsignadas : Nat
  docentes : List DocenteProfile
deriving DecidableEq, Repr

/-- Embedding of `max(designaciones_list, key=lambda d: len(d.get('correos', '')))`:
the first designation of the group with the longest `correos` string
(Python's `max` keeps the earlier element unless a strictly greater key
appears).  Groups are never empty; `[]` returns the `Inhabited` default. -/
def pickPrimary (g : List DocenteDesignacion) : DocenteDesignacion :=
  match g with
  | [] => default
  | x :: xs => xs.foldl (fun best d => if best.correos.length < d.correos.length then d else best) x

/-- The stripped person name used as the grouping key of
`get_docentes_with_designaciones`. -/
def docenteKey (d : DocenteDesignacion) : String :=
  pyStrip d.apellidoYNombre

/-- Ascending order on profiles by person name, the key of
`docentes.sort(key=lambda d: d['apellido_y_nombre'])`. -/
def profileLe (a b : DocenteProfile) : Prop :=
  strLe a.apellidoYNombre b.apellidoYNombre = true

instance : DecidableRel profileLe := fun a b =>
  inferInstanceAs (Decidable (strLe a.apellidoYNombre b.apellidoYNombre = true))

/-- The profile built for one grouped docente. -/
def mkDocenteProfile (g : List DocenteDesignacion) : DocenteProfile :=
  let primary := pickPrimary g
  { apellidoYNombre := primary.apellidoYNombre, legajo := primary.legajo
    documento := primary.documento, cuil := primary.cuil, sexo := primary.sexo
    fechaNacim := primary.fechaNacim, correos := primary.correos
    totalDesignaciones := g.length
    totalMaterias := (g.map (fun d => d.materias.length)).sum
    designaciones := g }

/-- Embedding of `get_docentes_with_designaciones`: group the designations by stripped
person name (empty names are dropped), build one profile per group, and sort
the profiles ascending by the profile's person name (Python's stable
`list.sort`, modelled by the stable `insertionSort`). -/
def getDocentesWithDesignaciones (dr : List RawDesignacion) (mr : List RawAssignment)
    (hr : List RawHuayca) : DocentesSummary :=
  let summary := getDesignacionesWithMaterias dr mr hr
  let ds := summary.designaciones
  let names := firstSeen ((ds.filter (fun d => docenteKey d ≠ "")).map docenteKey)
  let profiles := names.map (fun k => mkDocenteProfile (ds.filter (fun d => docenteKey d = k)))
  { totalDocentes := profiles.length
    totalDesignaciones := summary.totalDesignaciones
    totalMateriasAsignadas := (profiles.map (fun p => p.totalMaterias)).sum
    docentes := List.insertionSort profileLe profiles }

/-- The department label of `get_designaciones_by_departamento`: the stripped
`departamento`, or the sentinel `'SIN DEPARTAMENTO'` when that is empty. -/
def deptKey (d : DocenteDesignacion) : String :=
  if pyStrip d.departamento = "" then "SIN DEPARTAMENTO" else pyStrip d.departamento

/-- Ascending order on designations by `d_desig`, the within-department sort
key. -/
def desigLe (a b : DocenteDesignacion) : Prop :=
  strLe a.dDesig b.dDesig = true

instance : DecidableRel desigLe := fun a b =>
  inferInstanceAs (Decidable (strLe a.dDesig b.dDesig = true))

/-- Ascending order on `(department, group)` pairs by department name
(`sorted(by_department.items())`; keys are distinct so Python never compares
the second components). -/
def deptEntryLe (a b : String × List DocenteDesignacion) : Prop :=
  strLe a.1 b.1 = true

instance : DecidableRel deptEntryLe := fun a b =>
  inferInstanceAs (Decidable (strLe a.1 b.1 = true))

/-- Embedding of `get_designaciones_by_departamento`: group every designation under its
department label (first-seen order), sort each group by `d_desig`, then sort
the `(label, group)` entries by label. -/
def getDesignacionesByDepartamento (dr : List RawDesignacion) (mr : List RawAssignment)
    (hr : List RawHuayca) : List (String × List DocenteDesignacion) :=
  let ds := (getDesignacionesWithMaterias dr mr hr).designaciones
  let keys := firstSeen (ds.map deptKey)
  let grouped := keys.map (fun k =>
    (k, List.insertionSort desigLe (ds.filter (fun d => deptKey d = k))))
  List.insertionSort deptEntryLe grouped

/-! ## The Huayca memo cache (`_get_huayca_data` / `clear_cache`)

The cache is the `Optional` field `_huayca_cache`; the client call is
modelled as an oracle argument holding what `get_all_materias()` would
return.  The result triple is (returned rows, new cache state, number of
fetches performed by this call). -/

/-- Embedding of `_get_huayca_data`. -/
def getHuaycaData (fetched : List RawHuayca) (cache : Option (List RawHuayca)) :
    List RawHuayca × Option (List RawHuayca) × Nat :=
  match cache with
  | none => (fetched, some fetched, 1)
  | some d => (d, some d, 0)

/-- Embedding of `clear_cache`. -/
def clear_cache (_cache : Option (List RawHuayca)) : Option (List RawHuayca) :=
  none

/-! ## Concrete-row constructors used by witnesses and counterexamples -/

/-- An assignment row with the given id, `Cod SIU`, `Período`, `Rol` and
`Desig`; every other cell empty. -/
def mkAsg (i : Int) (cod per rolv dsg : String) : RawAssignment :=
  ⟨i, "", cod, "", "", "", "", "", dsg, "", "", "", "", rolv, per, ""⟩

/-- A designation row with the given id, `D Desig`, `Apellido y Nombre`,
`Correos` and `Departamento`; every other cell empty. -/
def mkDsg (i : Int) (num nom cor dep : String) : RawDesignacion :=
  ⟨i, num, "", "", "", "", "", "", "", "", nom, "", "", cor, "", "", "", "", "", "", dep, "", "", "", ""⟩

/-- A Huayca row with the given `id_materia` and `cod_guarani`; every other
cell empty. -/
def mkHua (i : Int) (cg : String) : RawHuayca :=
  ⟨i, "", "", 0, "", "", "", "", "", "", "", "", "", "", "", "", "", "", "", "", "", "", cg, ""⟩

/-- Four-row assignment table used to witness the course-detection claims:
two rows share the key `("101","1CUAT")`, one row has key `("101","2CUAT")`,
and one row has an empty `Cod SIU`. -/
def exMat : List RawAssignment :=
  [mkAsg 1 "101" "1CUAT" "Resp" "D1", mkAsg 2 "101" "1CUAT" "Aux" "D2",
   mkAsg 3 "101" "2CUAT" "Resp" "D3", mkAsg 4 "" "1CUAT" "Resp" "D4"]

/-- The course list `detect_unique_courses` produces from `exMat` with no
secondary sources. -/
def exCourses : List Course :=
  [⟨"101", "", "1CUAT", "",
    [toTeamMember (mkAsg 1 "101" "1CUAT" "Resp" "D1"),
     toTeamMember (mkAsg 2 "101" "1CUAT" "Aux" "D2")], none⟩,
   ⟨"101", "", "2CUAT", "", [toTeamMember (mkAsg 3 "101" "2CUAT" "Resp" "D3")], none⟩]

/-- A second copy of the four-row table, private to the team-member claim. -/
def exMat2 : List RawAssignment :=
  [mkAsg 1 "101" "1CUAT" "Resp" "D1", mkAsg 2 "101" "1CUAT" "Aux" "D2",
   mkAsg 3 "101" "2CUAT" "Resp" "D3", mkAsg 4 "" "1CUAT" "Resp" "D4"]

/-- The course list `detect_unique_courses` produces from `exMat2`. -/
def exCourses2 : List Course :=
  [⟨"101", "", "1CUAT", "",
    [toTeamMember (mkAsg 1 "101" "1CUAT" "Resp" "D1"),
     toTeamMember (mkAsg 2 "101" "1CUAT" "Aux" "D2")], none⟩,
   ⟨"101", "", "2CUAT", "", [toTeamMember (mkAsg 3 "101" "2CUAT" "Resp" "D3")], none⟩]

/-- The outcome `detect_unique_courses` has when a group's non-empty,
non-enum `Período` makes the `Course` constructor raise: a period validation
error carrying such a period. -/
def isInvalidPeriodError : Except DetectError (List Course) → Prop
  | .error (.invalidPeriod p) => p ∉ validPeriods ∧ p ≠ ""
  | _ => False

/-! ## Supporting lemmas -/

theorem charsLe_cons_iff (a b : Char) (as bs : List Char) :
    charsLe (a :: as) (b :: bs) = true ↔ a < b ∨ (a = b ∧ charsLe as bs = true) := by
  by_cases hab : a < b
  · simp [charsLe, hab]
  · by_cases hba : b < a
    · have hne : ¬ a = b := fun h => absurd hba (h ▸ lt_irrefl a)
      simp [charsLe, hab, hba, hne]
    · have heq : a = b := le_antisymm (le_of_not_lt hba) (le_of_not_lt hab)
      simp [charsLe, hab, hba, heq]

theorem charsLe_total (a b : List Char) : charsLe a b = true ∨ charsLe b a = true := by
  induction a generalizing b with
  | nil => left; rfl
  | cons x xs ih =>
    cases b with
    | nil => right; rfl
    | cons y ys =>
      rcases lt_trichotomy x y with h | h | h
      · left; exact (charsLe_cons_iff _ _ _ _).mpr (Or.inl h)
      · rcases ih ys with h2 | h2
        · left; exact (charsLe_cons_iff _ _ _ _).mpr (Or.inr ⟨h, h2⟩)
        · right; exact (charsLe_cons_iff _ _ _ _).mpr (Or.inr ⟨h.symm, h2⟩)
      · right; exact (charsLe_cons_iff _ _ _ _).mpr (Or.inl h)

theorem charsLe_trans {a b c : List Char} (hab : charsLe a b = true)
    (hbc : charsLe b c = true) : charsLe a c = true := by
  induction a generalizing b c with
  | nil => rfl
  | cons x xs ih =>
    cases b with
    | nil => exact absurd hab (by simp [charsLe])
    | cons y ys =>
      cases c with
      | nil => exact absurd hbc (by simp [charsLe])
      | cons z zs =>
        rcases (charsLe_cons_iff _ _ _ _).mp hab with h1 | ⟨h1, h1t⟩ <;>
          rcases (charsLe_cons_iff _ _ _ _).mp hbc with h2 | ⟨h2, h2t⟩
        · exact (charsLe_cons_iff _ _ _ _).mpr (Or.inl (lt_trans h1 h2))
        · exact (charsLe_cons_iff _ _ _ _).mpr (Or.inl (h2 ▸ h1))
        · exact (charsLe_cons_iff _ _ _ _).mpr (Or.inl (h1 ▸ h2))
        · exact (charsLe_cons_iff _ _ _ _).mpr (Or.inr ⟨h1.trans h2, ih h1t h2t⟩)

theorem strLe_total (a b : String) : strLe a b = true ∨ strLe b a = true :=
  charsLe_total a.data b.data

theorem strLe_trans {a b c : String} (hab : strLe a b = true) (hbc : strLe b c = true) :
    strLe a c = true :=
  charsLe_trans hab hbc

theorem mem_firstSeen {α : Type} [DecidableEq α] (l : List α) (x : α) :
    x ∈ firstSeen l ↔ x ∈ l := by
  induction l with
  | nil => simp [firstSeen]
  | cons a as ih =>
    simp only [firstSeen, List.mem_cons, List.mem_filter, ih]
    constructor
    · rintro (h | ⟨h, _⟩)
      · exact Or.inl h
      · exact Or.inr h
    · rintro (h | h)
      · exact Or.inl h
      · by_cases hx : x = a
        · exact Or.inl hx
        · exact Or.inr ⟨h, by simpa using hx⟩

theorem nodup_firstSeen {α : Type} [DecidableEq α] (l : List α) :
    (firstSeen l).Nodup := by
  induction l with
  | nil => simp [firstSeen]
  | cons a as ih =>
    refine List.Nodup.cons ?_ (List.Nodup.filter _ ih)
    intro hmem
    rcases List.mem_filter.mp hmem with ⟨_, hne⟩
    simp at hne

theorem sum_map_ite_eq_zero {α : Type} [DecidableEq α] (keys : List α) (x : α)
    (c : Nat) (hx : x ∉ keys) :
    (keys.map (fun k => if x = k then c else 0)).sum = 0 := by
  induction keys with
  | nil => rfl
  | cons k ks ih =>
    have hxk : ¬ x = k := fun h => hx (h ▸ List.mem_cons_self k ks)
    have hxs : x ∉ ks := fun h => hx (List.mem_cons_of_mem _ h)
    simp [hxk, ih hxs]

theorem sum_map_ite_eq_one {α : Type} [DecidableEq α] (keys : List α) (x : α)
    (c : Nat) (hnd : keys.Nodup) (hx : x ∈ keys) :
    (keys.map (fun k => if x = k then c else 0)).sum = c := by
  induction keys with
  | nil => cases hx
  | cons k ks ih =>
    rcases List.mem_cons.mp hx with h | h
    · subst h
      have hnk : x ∉ ks := (List.nodup_cons.mp hnd).1
      simp [sum_map_ite_eq_zero ks x c hnk]
    · have hxk : ¬ x = k := by
        intro he
        exact (List.nodup_cons.mp hnd).1 (he ▸ h)
      simp only [List.map_cons, List.sum_cons, if_neg hxk]
      rw [ih (List.nodup_cons.mp hnd).2 h]
      simp

/-- Grouping a list by a key partitions it: the group sizes over any
duplicate-free covering key list sum to the list's length. -/
theorem sum_group_lengths {α κ : Type} [DecidableEq κ] (f : α → κ)
    (l : List α) (keys : List κ) (hnd : keys.Nodup) (hcov : ∀ x ∈ l, f x ∈ keys) :
    (keys.map (fun k => (l.filter (fun x => f x = k)).length)).sum = l.length := by
  induction l with
  | nil => simp
  | cons x xs ih =>
    have hterm : ∀ k : κ, (List.filter (fun y => decide (f y = k)) (x :: xs)).length =
        (if f x = k then 1 else 0) + (xs.filter (fun y => f y = k)).length := by
      intro k
      by_cases h : f x = k <;> simp [List.filter_cons, h, Nat.add_comm]
    calc (keys.map (fun k => ((x :: xs).filter (fun y => f y = k)).length)).sum
        = (keys.map (fun k => (if f x = k then 1 else 0) +
            (xs.filter (fun y => f y = k)).length)).sum := by
          exact congrArg List.sum (List.map_congr_left (fun k _ => hterm k))
      _ = (keys.map (fun k => if f x = k then 1 else 0)).sum +
            (keys.map (fun k => (xs.filter (fun y => f y = k)).length)).sum :=
          List.sum_map_add
      _ = 1 + xs.length := by
          rw [sum_map_ite_eq_one keys (f x) 1 hnd (hcov x (List.mem_cons_self x xs)),
            ih (fun y hy => hcov y (List.mem_cons_of_mem _ hy))]
      _ = (x :: xs).length := by simp [Nat.add_comm]

theorem getLast?_cons_or {α : Type} (a : α) (l : List α) :
    (a :: l).getLast? = (l.getLast?).or (some a) := by
  induction l generalizing a with
  | nil => rfl
  | cons b t ih =>
    rw [List.getLast?_cons_cons, ih b, Option.or_assoc]
    rfl

theorem count_filter_ite {α : Type} [DecidableEq α] (l : List α) (p : α → Bool) (a : α) :
    (l.filter p).count a = if p a then l.count a else 0 := by
  induction l with
  | nil => simp
  | cons x xs ih =>
    by_cases hpx : p x = true
    · rw [List.filter_cons, if_pos hpx]
      by_cases hxa : x = a
      · subst hxa
        simp [List.count_cons, ih, hpx]
      · simp [List.count_cons, hxa, ih]
    · rw [List.filter_cons, if_neg hpx]
      by_cases hxa : x = a
      · subst hxa
        rw [ih]
        simp [hpx]
      · rw [ih, List.count_cons]
        simp [hxa]

theorem countP_eq_one_of_nodup {α : Type} (keys : List α) (p : α → Bool) (a : α)
    (hnd : keys.Nodup) (ha : a ∈ keys) (hp : ∀ k ∈ keys, p k = true ↔ k = a) :
    keys.countP p = 1 := by
  induction keys with
  | nil => cases ha
  | cons k ks ih =>
    have hnk : k ∉ ks := (List.nodup_cons.mp hnd).1
    rcases List.mem_cons.mp ha with h | h
    · subst h
      have hz : ks.countP p = 0 := List.countP_eq_zero.mpr (fun j hj hpj =>
        hnk (((hp j (List.mem_cons_of_mem _ hj)).mp hpj) ▸ hj))
      rw [List.countP_cons, hz,
        if_pos ((hp a (List.mem_cons_self a ks)).mpr rfl)]
    · have hne : ¬ (p k = true) := fun hpk =>
        hnk ((hp k (List.mem_cons_self k ks)).mp hpk ▸ h)
      rw [List.countP_cons, if_neg hne,
        ih (List.nodup_cons.mp hnd).2 h (fun j hj => hp j (List.mem_cons_of_mem _ hj))]

theorem groupAssignments_map_fst (l : List RawAssignment) :
    (groupAssignmentsByCourse l).map Prod.fst = firstSeen (l.map recKey) := by
  simp [groupAssignmentsByCourse, List.map_map, Function.comp_def]

theorem buildCourseObjects_ok_keys (gs : List ((String × String) × List RawAssignment))
    (cs : List Course) (h : buildCourseObjects gs = .ok cs) :
    cs.map courseKey = (gs.map Prod.fst).filter (fun k => decide (k.1 ≠ "" ∧ k.2 ≠ "")) := by
  induction gs generalizing cs with
  | nil =>
    simp only [buildCourseObjects, Except.ok.injEq] at h
    subst h
    rfl
  | cons g rest ih =>
    obtain ⟨⟨c, p⟩, grp⟩ := g
    simp only [buildCourseObjects] at h
    by_cases h1 : c = "" ∨ p = ""
    · rw [if_pos h1] at h
      have hcond : ¬(¬c = "" ∧ ¬p = "") := fun hc => h1.elim (fun he => hc.1 he) (fun he => hc.2 he)
      simpa [List.filter_cons, hcond] using ih cs h
    · rw [if_neg h1] at h
      by_cases h2 : p ∈ validPeriods
      · rw [if_pos h2] at h
        cases hb : buildCourseObjects rest with
        | ok cs0 =>
          rw [hb] at h
          simp only [Except.map, Except.ok.injEq] at h
          subst h
          push_neg at h1
          simpa [List.filter_cons, h1.1, h1.2, courseKey] using ih cs0 hb
        | error e1 =>
          rw [hb] at h
          simp [Except.map] at h
      · rw [if_neg h2] at h
        simp at h

theorem buildCourseObjects_ok_members (gs : List ((String × String) × List RawAssignment))
    (cs : List Course) (h : buildCourseObjects gs = .ok cs) :
    cs.map (fun c => c.teamMembers) =
      (gs.filter (fun g => decide (g.1.1 ≠ "" ∧ g.1.2 ≠ ""))).map
        (fun g => (g.2.filter validTeamMember).map toTeamMember) := by
  induction gs generalizing cs with
  | nil =>
    simp only [buildCourseObjects, Except.ok.injEq] at h
    subst h
    rfl
  | cons g rest ih =>
    obtain ⟨⟨c, p⟩, grp⟩ := g
    simp only [buildCourseObjects] at h
    by_cases h1 : c = "" ∨ p = ""
    · rw [if_pos h1] at h
      have hcond : ¬(¬c = "" ∧ ¬p = "") := fun hc => h1.elim (fun he => hc.1 he) (fun he => hc.2 he)
      simpa [List.filter_cons, hcond] using ih cs h
    · rw [if_neg h1] at h
      by_cases h2 : p ∈ validPeriods
      · rw [if_pos h2] at h
        cases hb : buildCourseObjects rest with
        | ok cs0 =>
          rw [hb] at h
          simp only [Except.map, Except.ok.injEq] at h
          subst h
          push_neg at h1
          simpa [List.filter_cons, h1.1, h1.2] using ih cs0 hb
        | error e1 =>
          rw [hb] at h
          simp [Except.map] at h
      · rw [if_neg h2] at h
        simp at h

theorem buildCourseObjects_ok_valid (gs : List ((String × String) × List RawAssignment))
    (cs : List Course) (h : buildCourseObjects gs = .ok cs) :
    ∀ g ∈ gs, g.1.1 ≠ "" → g.1.2 ≠ "" → g.1.2 ∈ validPeriods := by
  induction gs generalizing cs with
  | nil => intro g hg; cases hg
  | cons g0 rest ih =>
    obtain ⟨⟨c, p⟩, grp⟩ := g0
    simp only [buildCourseObjects] at h
    by_cases h1 : c = "" ∨ p = ""
    · rw [if_pos h1] at h
      intro g hg hc hp
      rcases List.mem_cons.mp hg with hg | hg
      · subst hg
        rcases h1 with h1 | h1
        · exact absurd h1 hc
        · exact absurd h1 hp
      · exact ih cs h g hg hc hp
    · rw [if_neg h1] at h
      by_cases h2 : p ∈ validPeriods
      · rw [if_pos h2] at h
        cases hb : buildCourseObjects rest with
        | ok cs0 =>
          intro g hg hc hp
          rcases List.mem_cons.mp hg with hg | hg
          · subst hg; exact h2
          · exact ih cs0 hb g hg hc hp
        | error e1 =>
          rw [hb] at h
          simp [Except.map] at h
      · rw [if_neg h2] at h
        simp at h

theorem buildCourseObjects_error_shape (gs : List ((String × String) × List RawAssignment))
    (e : DetectError) (h : buildCourseObjects gs = .error e) :
    ∃ p, e = .invalidPeriod p ∧ p ∉ validPeriods ∧ p ≠ "" := by
  induction gs generalizing e with
  | nil => simp only [buildCourseObjects] at h; cases h
  | cons g rest ih =>
    obtain ⟨⟨c, p⟩, grp⟩ := g
    simp only [buildCourseObjects] at h
    by_cases h1 : c = "" ∨ p = ""
    · rw [if_pos h1] at h
      exact ih e h
    · rw [if_neg h1] at h
      by_cases h2 : p ∈ validPeriods
      · rw [if_pos h2] at h
        cases hb : buildCourseObjects rest with
        | ok cs0 =>
          rw [hb] at h
          simp [Except.map] at h
        | error e1 =>
          rw [hb] at h
          simp only [Except.map, Except.error.injEq] at h
          subst h
          exact ih e1 hb
      · rw [if_neg h2] at h
        simp only [Except.error.injEq] at h
        subst h
        push_neg at h1
        exact ⟨p, rfl, h2, h1.2⟩

theorem enrichMember_desig (look : String → Option RawDesignacion) (m : TeamMember) :
    (enrichMember look m).desig = m.desig := by
  cases h : look m.desig <;> simp [enrichMember, h]

theorem enrichMember_idRed (look : String → Option RawDesignacion) (m : TeamMember) :
    (enrichMember look m).idRedesignacion = m.idRedesignacion := by
  cases h : look m.desig <;> simp [enrichMember, h]

theorem enrichMember_idem (look : String → Option RawDesignacion) (m : TeamMember) :
    enrichMember look (enrichMember look m) = enrichMember look m := by
  cases h : look m.desig with
  | none => simp [enrichMember, h]
  | some f => simp [enrichMember, h]

theorem enrichF_map_courseKey (d : Option (List RawDesignacion)) (cs : List Course) :
    (enrichWithFacultyDetails d cs).map courseKey = cs.map courseKey := by
  cases d with
  | none => rfl
  | some ds =>
    rw [enrichWithFacultyDetails, List.map_map]
    exact List.map_congr_left (fun c _ => rfl)

theorem enrichH_map_courseKey (hOpt : Option (List RawHuayca)) (cs : List Course) :
    (enrichWithHuaycaDetails hOpt cs).map courseKey = cs.map courseKey := by
  cases hOpt with
  | none => rfl
  | some hs =>
    rw [enrichWithHuaycaDetails, List.map_map]
    exact List.map_congr_left (fun c _ => by
      cases hx : buildHuaycaLookup hs c.codSiu <;> simp [Function.comp, hx, courseKey])

theorem allTeamMembers_enrichH (hOpt : Option (List RawHuayca)) (cs : List Course) :
    allTeamMembers (enrichWithHuaycaDetails hOpt cs) = allTeamMembers cs := by
  cases hOpt with
  | none => rfl
  | some hs =>
    simp only [allTeamMembers, enrichWithHuaycaDetails, List.map_map]
    congr 1
    exact List.map_congr_left (fun c _ => by
      cases hx : buildHuaycaLookup hs c.codSiu <;> simp [Function.comp, hx])

theorem allTeamMembers_ids_enrichF (d : Option (List RawDesignacion)) (cs : List Course) :
    (allTeamMembers (enrichWithFacultyDetails d cs)).map (fun m => m.idRedesignacion) =
      (allTeamMembers cs).map (fun m => m.idRedesignacion) := by
  cases d with
  | none => rfl
  | some ds =>
    simp only [allTeamMembers, enrichWithFacultyDetails, List.map_map, List.map_flatten]
    congr 1
    refine List.map_congr_left (fun c _ => ?_)
    simp only [Function.comp, List.map_map]
    exact List.map_congr_left (fun m _ => enrichMember_idRed _ m)

theorem buildFacultyLookup_foldl (ds : List RawDesignacion)
    (acc : String → Option RawDesignacion) (k : String) :
    (ds.foldl
      (fun acc d =>
        if d.dDesig ≠ "" then (fun k2 => if k2 = d.dDesig then some d else acc k2) else acc)
      acc) k
    = ((ds.filter (fun d => decide (d.dDesig = k ∧ k ≠ ""))).getLast?).or (acc k) := by
  induction ds generalizing acc with
  | nil => simp
  | cons d rest ih =>
    rw [List.foldl_cons, ih]
    by_cases hd : d.dDesig = k ∧ k ≠ ""
    · have hfilter : List.filter (fun x => decide (x.dDesig = k ∧ k ≠ "")) (d :: rest)
          = d :: List.filter (fun x => decide (x.dDesig = k ∧ k ≠ "")) rest := by
        rw [List.filter_cons, if_pos (by simpa using hd)]
      rw [hfilter, getLast?_cons_or, Option.or_assoc]
      congr 1
      have hne : d.dDesig ≠ "" := by rw [hd.1]; exact hd.2
      simp [hne, hd.1.symm]
    · have hfilter : List.filter (fun x => decide (x.dDesig = k ∧ k ≠ "")) (d :: rest)
          = List.filter (fun x => decide (x.dDesig = k ∧ k ≠ "")) rest := by
        rw [List.filter_cons, if_neg (by simpa using hd)]
      rw [hfilter]
      congr 1
      by_cases he : d.dDesig = ""
      · simp [he]
      · have hk : ¬ (k = d.dDesig) := fun hkk => hd ⟨hkk.symm, fun hke => he (hkk ▸ hke)⟩
        simp [he, hk]

theorem buildFacultyLookup_eq_getLast (ds : List RawDesignacion) (k : String) :
    buildFacultyLookup ds k =
      if k = "" then none else (ds.filter (fun d => d.dDesig = k)).getLast? := by
  unfold buildFacultyLookup
  rw [buildFacultyLookup_foldl ds (fun _ => none) k, Option.or_none]
  by_cases hk : k = ""
  · subst hk
    simp
  · rw [if_neg hk]
    congr 1
    exact List.filter_congr (fun d _ => by simp [hk])

theorem detect_ok_decomp (mat : List RawAssignment) (d : Option (List RawDesignacion))
    (hs : Option (List RawHuayca)) (cs : List Course)
    (h : detect_unique_courses ⟨some mat, d, hs⟩ = .ok cs) :
    ∃ cs0, buildCourseObjects (groupAssignmentsByCourse mat) = .ok cs0 ∧
      cs = enrichWithHuaycaDetails hs (enrichWithFacultyDetails d cs0) := by
  simp only [detect_unique_courses] at h
  cases hb : buildCourseObjects (groupAssignmentsByCourse mat) with
  | ok cs0 =>
    rw [hb] at h
    simp only [Except.ok.injEq] at h
    exact ⟨cs0, rfl, h.symm⟩
  | error e =>
    rw [hb] at h
    simp at h

theorem members_perm (mat : List RawAssignment) (cs0 : List Course)
    (hb : buildCourseObjects (groupAssignmentsByCourse mat) = .ok cs0) :
    (allTeamMembers cs0).Perm
      ((mat.filter
        (fun r => decide (r.codSiu ≠ "" ∧ r.periodo ≠ "" ∧ validTeamMember r))).map toTeamMember) := by
  have hmem := buildCourseObjects_ok_members _ _ hb
  have hgroups : (groupAssignmentsByCourse mat).filter
      (fun g => decide (g.1.1 ≠ "" ∧ g.1.2 ≠ "")) =
      ((firstSeen (mat.map recKey)).filter (fun k => decide (k.1 ≠ "" ∧ k.2 ≠ ""))).map
        (fun k => (k, mat.filter (fun r => decide (recKey r = k)))) := by
    unfold groupAssignmentsByCourse
    rw [List.filter_map]
    rfl
  set keysNE := (firstSeen (mat.map recKey)).filter
    (fun k => decide (k.1 ≠ "" ∧ k.2 ≠ "")) with hkeys
  have hflat : allTeamMembers cs0 =
      ((keysNE.map (fun k =>
        (mat.filter (fun r => decide (recKey r = k))).filter validTeamMember)).flatten).map
        toTeamMember := by
    unfold allTeamMembers
    rw [hmem, hgroups, List.map_map, List.map_flatten, List.map_map]
    rfl
  rw [hflat]
  refine List.Perm.map toTeamMember ?_
  rw [List.perm_iff_count]
  intro x
  rw [List.count_flatten, List.map_map]
  simp only [Function.comp_def]
  have hterm : (keysNE.map (fun k =>
      ((mat.filter (fun r => decide (recKey r = k))).filter validTeamMember).count x)) =
      keysNE.map (fun k =>
        if validTeamMember x ∧ recKey x = k then mat.count x else 0) := by
    refine List.map_congr_left (fun k _ => ?_)
    rw [List.filter_filter, count_filter_ite]
    by_cases hc : validTeamMember x ∧ recKey x = k
    · rw [if_pos (by simp [hc.1, hc.2]), if_pos hc]
    · rw [if_neg (by simpa using hc), if_neg hc]
  rw [hterm, count_filter_ite]
  by_cases hv : validTeamMember x
  · have hsimpl : keysNE.map (fun k =>
        if validTeamMember x ∧ recKey x = k then mat.count x else 0) =
        keysNE.map (fun k => if recKey x = k then mat.count x else 0) := by
      refine List.map_congr_left (fun k _ => ?_)
      by_cases hc : recKey x = k
      · rw [if_pos ⟨hv, hc⟩, if_pos hc]
      · rw [if_neg (fun hh => hc hh.2), if_neg hc]
    rw [hsimpl]
    have hnd : keysNE.Nodup := List.Nodup.filter _ (nodup_firstSeen _)
    by_cases hx : x ∈ mat
    · have hK : recKey x ∈ firstSeen (mat.map recKey) :=
        (mem_firstSeen _ _).mpr (List.mem_map.mpr ⟨x, hx, rfl⟩)
      by_cases hne : x.codSiu ≠ "" ∧ x.periodo ≠ ""
      · have hin : recKey x ∈ keysNE := by
          rw [hkeys]
          exact List.mem_filter.mpr ⟨hK, by simp [recKey, hne.1, hne.2]⟩
        rw [sum_map_ite_eq_one _ _ _ hnd hin, if_pos (by simp [hne.1, hne.2, hv])]
      · have hout : recKey x ∉ keysNE := by
          rw [hkeys]
          intro hmem2
          exact hne (by
            have := (List.mem_filter.mp hmem2).2
            simp only [recKey, decide_eq_true_eq] at this
            exact this)
        rw [sum_map_ite_eq_zero _ _ _ hout,
          if_neg (by simpa [hv] using fun h1 h2 => hne ⟨h1, h2⟩)]
    · have hzero : mat.count x = 0 := by
        simp [List.count_eq_zero, hx]
      rw [hzero]
      have hmap0 : keysNE.map (fun k => if recKey x = k then (0 : Nat) else 0) =
          keysNE.map (fun _ => (0 : Nat)) :=
        List.map_congr_left (fun k _ => by by_cases hc : recKey x = k <;> simp [hc])
      rw [hmap0]
      simp
  · have hmap0 : keysNE.map (fun k =>
        if validTeamMember x ∧ recKey x = k then mat.count x else 0) =
        keysNE.map (fun _ => (0 : Nat)) :=
      List.map_congr_left (fun k _ => by rw [if_neg (fun hh => hv hh.1)])
    rw [hmap0, if_neg (by simpa using fun _ _ => hv)]
    simp

/-! ## Claim theorems -/

/-- Claim C1. For every loaded assignment table, a successful
`detect_unique_courses` run returns courses whose `(cod_siu, periodo)` keys
are pairwise distinct, containing exactly one course for each distinct
`(Cod SIU, Período)` pair of the input whose components are both non-empty,
and no course for a group with an empty component — such groups are skipped
without failing the run. -/
theorem detect_unique_courses_keys (mat : List RawAssignment)
    (dOpt : Option (List RawDesignacion)) (hOpt : Option (List RawHuayca))
    (cs : List Course)
    (h : detect_unique_courses ⟨some mat, dOpt, hOpt⟩ = .ok cs) :
    (cs.map courseKey).Nodup ∧
      ∀ k : String × String,
        k ∈ cs.map courseKey ↔ (k ∈ mat.map recKey ∧ k.1 ≠ "" ∧ k.2 ≠ "") := by
  obtain ⟨cs0, hb, hcs⟩ := detect_ok_decomp mat dOpt hOpt cs h
  have hkeys : cs.map courseKey =
      (firstSeen (mat.map recKey)).filter (fun k => decide (k.1 ≠ "" ∧ k.2 ≠ "")) := by
    rw [hcs, enrichH_map_courseKey, enrichF_map_courseKey,
      buildCourseObjects_ok_keys _ _ hb, groupAssignments_map_fst]
  constructor
  · rw [hkeys]
    exact List.Nodup.filter _ (nodup_firstSeen _)
  · intro k
    rw [hkeys, List.mem_filter, mem_firstSeen]
    simp

/-- Witness for the course-key claim: on `exMat` (a skipped empty-key group
included) detection succeeds and the theorem's conclusions hold. -/
theorem detect_unique_courses_keys_witness :
    (exCourses.map courseKey).Nodup ∧
      (("101", "1CUAT") ∈ exCourses.map courseKey ↔
        (("101", "1CUAT") ∈ exMat.map recKey ∧ ("101" : String) ≠ "" ∧ ("1CUAT" : String) ≠ "")) :=
  ⟨(detect_unique_courses_keys exMat none none exCourses rfl).1,
   (detect_unique_courses_keys exMat none none exCourses rfl).2 ("101", "1CUAT")⟩

/-- Claim C2 counterexample. A record with non-empty code and period but an
invalid `Rol` fails `TeamMember` validation and is silently dropped, so the
union of the returned team members does not equal the input minus the
empty-key records: on this one-row input the produced course has no team
members at all. -/
theorem detect_team_members_counterexample :
    detect_unique_courses ⟨some [mkAsg 1 "A" "1CUAT" "X" ""], none, none⟩ =
        .ok [⟨"A", "", "1CUAT", "", [], none⟩] ∧
      ¬ (((allTeamMembers [⟨"A", "", "1CUAT", "", [], none⟩]).map
            (fun m => m.idRedesignacion)).Perm
          (([mkAsg 1 "A" "1CUAT" "X" ""].filter
            (fun r => decide (r.codSiu ≠ "" ∧ r.periodo ≠ ""))).map
            (fun r => r.idRedesignacion))) :=
  ⟨rfl, by decide⟩

/-- Claim C2, amended. For every successful `detect_unique_courses` run, the
union of the returned team members equals (as a multiset of
`id_redesignacion` values, none missing and none duplicated) the input
records minus those with empty code or empty period *and minus those failing
structural `TeamMember` validation* (invalid `Rol`/`Período` enum value). -/
theorem detect_team_members_amended (mat : List RawAssignment)
    (dOpt : Option (List RawDesignacion)) (hOpt : Option (List RawHuayca))
    (cs : List Course)
    (h : detect_unique_courses ⟨some mat, dOpt, hOpt⟩ = .ok cs) :
    ((allTeamMembers cs).map (fun m => m.idRedesignacion)).Perm
      ((mat.filter
        (fun r => decide (r.codSiu ≠ "" ∧ r.periodo ≠ "" ∧ validTeamMember r))).map
        (fun r => r.idRedesignacion)) := by
  obtain ⟨cs0, hb, hcs⟩ := detect_ok_decomp mat dOpt hOpt cs h
  have h1 : (allTeamMembers cs).map (fun m => m.idRedesignacion) =
      (allTeamMembers cs0).map (fun m => m.idRedesignacion) := by
    rw [hcs, allTeamMembers_enrichH, allTeamMembers_ids_enrichF]
  rw [h1]
  have h2 := (members_perm mat cs0 hb).map (fun m => m.idRedesignacion)
  rw [List.map_map] at h2
  exact h2

/-- Witness for the amended team-member claim on the concrete table
`exMat2`. -/
theorem detect_team_members_amended_witness :
    ((allTeamMembers exCourses2).map (fun m => m.idRedesignacion)).Perm
      ((exMat2.filter
        (fun r => decide (r.codSiu ≠ "" ∧ r.periodo ≠ "" ∧ validTeamMember r))).map
        (fun r => r.idRedesignacion)) :=
  detect_team_members_amended exMat2 none none exCourses2 rfl

/-- Claim C3. Both enrichment passes are idempotent: with the designation and
Huayca data fixed, running a pass twice over a course collection attaches
exactly what running it once attaches. -/
theorem enrichment_idempotent (dOpt : Option (List RawDesignacion))
    (hOpt : Option (List RawHuayca)) (cs : List Course) :
    enrichWithFacultyDetails dOpt (enrichWithFacultyDetails dOpt cs) =
        enrichWithFacultyDetails dOpt cs ∧
      enrichWithHuaycaDetails hOpt (enrichWithHuaycaDetails hOpt cs) =
        enrichWithHuaycaDetails hOpt cs := by
  constructor
  · cases dOpt with
    | none => rfl
    | some ds =>
      simp only [enrichWithFacultyDetails, List.map_map]
      refine List.map_congr_left (fun c _ => ?_)
      have htm : ∀ tm : List TeamMember,
          (tm.map (enrichMember (buildFacultyLookup ds))).map
              (enrichMember (buildFacultyLookup ds)) =
            tm.map (enrichMember (buildFacultyLookup ds)) := fun tm => by
        rw [List.map_map]
        exact List.map_congr_left (fun m _ => enrichMember_idem _ m)
      simp [Function.comp, htm]
  · cases hOpt with
    | none => rfl
    | some hsv =>
      simp only [enrichWithHuaycaDetails, List.map_map]
      refine List.map_congr_left (fun c _ => ?_)
      cases hx : buildHuaycaLookup hsv c.codSiu with
      | none => simp [Function.comp, hx]
      | some hrec => simp [Function.comp, hx]

/-- Claim C9. If the assignment table holds a record whose group key has a
non-empty code and a non-empty period that is not one of the five enum
values, `detect_unique_courses` aborts with the period validation error
raised by the `Course` constructor — the group is not skipped. -/
theorem detect_invalid_period_aborts (mat : List RawAssignment)
    (dOpt : Option (List RawDesignacion)) (hOpt : Option (List RawHuayca))
    (r : RawAssignment) (hr : r ∈ mat) (hcod : r.codSiu ≠ "")
    (hper : r.periodo ≠ "") (hinv : r.periodo ∉ validPeriods) :
    isInvalidPeriodError (detect_unique_courses ⟨some mat, dOpt, hOpt⟩) := by
  cases hd : detect_unique_courses ⟨some mat, dOpt, hOpt⟩ with
  | ok cs =>
    exfalso
    obtain ⟨cs0, hb, _⟩ := detect_ok_decomp mat dOpt hOpt cs hd
    have hgmem : (recKey r, mat.filter (fun x => decide (recKey x = recKey r))) ∈
        groupAssignmentsByCourse mat := by
      unfold groupAssignmentsByCourse
      exact List.mem_map.mpr
        ⟨recKey r, (mem_firstSeen _ _).mpr (List.mem_map.mpr ⟨r, hr, rfl⟩), rfl⟩
    exact hinv (buildCourseObjects_ok_valid _ _ hb _ hgmem hcod hper)
  | error e =>
    have hb : buildCourseObjects (groupAssignmentsByCourse mat) = .error e := by
      simp only [detect_unique_courses] at hd
      cases hb2 : buildCourseObjects (groupAssignmentsByCourse mat) with
      | ok cs0 =>
        rw [hb2] at hd
        simp at hd
      | error e2 =>
        rw [hb2] at hd
        simp only [Except.error.injEq] at hd
        subst hd
        rfl
    obtain ⟨p, hp, hinv2, hne⟩ := buildCourseObjects_error_shape _ _ hb
    subst hp
    exact ⟨hinv2, hne⟩

/-- Witness for the invalid-period claim: a one-row table whose period is
`"SUMMER"` makes detection abort with a period validation error. -/
theorem detect_invalid_period_aborts_witness :
    isInvalidPeriodError
      (detect_unique_courses ⟨some [mkAsg 1 "A" "SUMMER" "Resp" ""], none, none⟩) :=
  detect_invalid_period_aborts [mkAsg 1 "A" "SUMMER" "Resp" ""] none none
    (mkAsg 1 "A" "SUMMER" "Resp" "") (by decide) (by decide) (by decide) (by decide)

/-- Claim C10. With the assignment cache still unloaded, `detect_unique_courses`
fails immediately with the guard `ValueError`; the function has no access to
the API clients, so no fetch can be attempted. -/
theorem detect_requires_loaded_data (dOpt : Option (List RawDesignacion))
    (hOpt : Option (List RawHuayca)) :
    detect_unique_courses ⟨none, dOpt, hOpt⟩ = .error .dataNotLoaded := rfl

/-- Claim C6. The Huayca memo cache: from a fresh service (or any state reached
by `clear_cache`) the first `_get_huayca_data` call performs exactly one
fetch and stores it; every later call before the next invalidation performs
zero fetches, returns the memoized rows, and leaves the cache unchanged;
after `clear_cache` the next call performs exactly one new fetch. -/
theorem huayca_cache_policy (f1 f2 : List RawHuayca) (c : Option (List RawHuayca)) :
    (getHuaycaData f1 none).2.2 = 1 ∧
      (getHuaycaData f1 none).1 = f1 ∧
      (getHuaycaData f2 (getHuaycaData f1 none).2.1).2.2 = 0 ∧
      (getHuaycaData f2 (getHuaycaData f1 none).2.1).1 = f1 ∧
      (getHuaycaData f2 (getHuaycaData f1 none).2.1).2.1 = some f1 ∧
      (getHuaycaData f2 (clear_cache c)).2.2 = 1 ∧
      (getHuaycaData f2 (clear_cache c)).1 = f2 :=
  ⟨rfl, rfl, rfl, rfl, rfl, rfl, rfl⟩

/-- Claim C7 divergence witness. On a one-row assignment table with course code
`"A"` and a one-row Huayca table with `id_materia = 5` and
`cod_guarani = "A"`, the enrichment lookup (keyed by `cod_guarani`) matches —
the single detected course comes back with Huayca details attached — yet
`_calculate_huayca_match_rate` reports `0.0`, because it tests the course
codes against `str(id_materia)` (`"5"`) instead of the `cod_guarani` keys the
pipeline actually uses. -/
theorem huayca_match_rate_ignores_cod_guarani :
    calculateHuaycaMatchRate (some [mkAsg 1 "A" "1CUAT" "Resp" "D1"])
        (some [mkHua 5 "A"]) = 0 ∧
      detect_unique_courses
          ⟨some [mkAsg 1 "A" "1CUAT" "Resp" "D1"], none, some [mkHua 5 "A"]⟩ =
        .ok [⟨"A", "", "1CUAT", "",
              [toTeamMember (mkAsg 1 "A" "1CUAT" "Resp" "D1")],
              some (toHuaycaCourseDetails (mkHua 5 "A"))⟩] := by
  constructor
  · norm_num [calculateHuaycaMatchRate, firstSeen, mkAsg]
    decide
  · rfl

/-- Claim C8. Faculty enrichment: the lookup table maps every non-empty
designation number to the *last* designation row carrying it (last-write-wins
on duplicates, empty numbers never inserted); a member whose `Desig` is a key
gets exactly that row attached, and a member whose number is absent — or
empty — is left untouched, which is not an error. -/
theorem faculty_enrichment_last_write_wins (ds : List RawDesignacion) (m : TeamMember) :
    (∀ k : String, buildFacultyLookup ds k =
        if k = "" then none else (ds.filter (fun d => d.dDesig = k)).getLast?) ∧
      (∀ f : RawDesignacion, m.desig ≠ "" →
        (ds.filter (fun d => d.dDesig = m.desig)).getLast? = some f →
        enrichMember (buildFacultyLookup ds) m =
          { m with personalDetails := some (toFacultyDetails f) }) ∧
      ((ds.filter (fun d => d.dDesig = m.desig)).getLast? = none →
        enrichMember (buildFacultyLookup ds) m = m) ∧
      (m.desig = "" → enrichMember (buildFacultyLookup ds) m = m) := by
  refine ⟨fun k => buildFacultyLookup_eq_getLast ds k, ?_, ?_, ?_⟩
  · intro f hne hlast
    unfold enrichMember
    rw [buildFacultyLookup_eq_getLast, if_neg hne, hlast]
  · intro hlast
    unfold enrichMember
    by_cases hne : m.desig = "" <;>
      rw [buildFacultyLookup_eq_getLast] <;>
      simp [hne, hlast]
  · intro hemp
    unfold enrichMember
    rw [buildFacultyLookup_eq_getLast, if_pos hemp]

/-- Witness for the faculty-enrichment claim, the spec's own example: with
the lookup built from one `D1`/`Smith` row, a member with number `D1` gets
the Smith row attached and a member with number `D9` stays unenriched. -/
theorem faculty_enrichment_last_write_wins_witness :
    enrichMember (buildFacultyLookup [mkDsg 7 "D1" "Smith" "" ""])
        (toTeamMember (mkAsg 10 "C" "1CUAT" "Resp" "D1")) =
      { toTeamMember (mkAsg 10 "C" "1CUAT" "Resp" "D1") with
          personalDetails := some (toFacultyDetails (mkDsg 7 "D1" "Smith" "" "")) } ∧
    enrichMember (buildFacultyLookup [mkDsg 7 "D1" "Smith" "" ""])
        (toTeamMember (mkAsg 11 "C" "1CUAT" "Resp" "D9")) =
      toTeamMember (mkAsg 11 "C" "1CUAT" "Resp" "D9") :=
  ⟨(faculty_enrichment_last_write_wins [mkDsg 7 "D1" "Smith" "" ""]
      (toTeamMember (mkAsg 10 "C" "1CUAT" "Resp" "D1"))).2.1
      (mkDsg 7 "D1" "Smith" "" "") (by decide) (by decide),
   (faculty_enrichment_last_write_wins [mkDsg 7 "D1" "Smith" "" ""]
      (toTeamMember (mkAsg 11 "C" "1CUAT" "Resp" "D9"))).2.2.1 (by decide)⟩

theorem getDesignaciones_designaciones_eq (dr : List RawDesignacion)
    (mr : List RawAssignment) (hr : List RawHuayca) :
    (getDesignacionesWithMaterias dr mr hr).designaciones =
      dr.map (fun rec =>
        { convertDesignacionRecord rec with
            materias := materiasByDesig (createHuaycaLookup hr) mr (pyStrip rec.dDesig) }) := rfl

theorem getDocentes_docentes_eq (dr : List RawDesignacion)
    (mr : List RawAssignment) (hr : List RawHuayca) :
    (getDocentesWithDesignaciones dr mr hr).docentes =
      List.insertionSort profileLe
        ((firstSeen ((((getDesignacionesWithMaterias dr mr hr).designaciones).filter
            (fun d => docenteKey d ≠ "")).map docenteKey)).map
          (fun k => mkDocenteProfile
            (((getDesignacionesWithMaterias dr mr hr).designaciones).filter
              (fun d => docenteKey d = k)))) := rfl

theorem getByDept_eq (dr : List RawDesignacion)
    (mr : List RawAssignment) (hr : List RawHuayca) :
    getDesignacionesByDepartamento dr mr hr =
      List.insertionSort deptEntryLe
        ((firstSeen (((getDesignacionesWithMaterias dr mr hr).designaciones).map deptKey)).map
          (fun k => (k, List.insertionSort desigLe
            (((getDesignacionesWithMaterias dr mr hr).designaciones).filter
              (fun d => deptKey d = k))))) := rfl

theorem deptKey_ne_empty (d : DocenteDesignacion) : deptKey d ≠ "" := by
  unfold deptKey
  by_cases h : pyStrip d.departamento = ""
  · rw [if_pos h]
    decide
  · rw [if_neg h]
    exact h

/-- Claim C4 counterexample. A designation row whose person name is empty is
dropped by the person grouping, so summing `total_designaciones` over the
returned profiles gives 0 while the flat designation count of the input
is 1. -/
theorem docentes_sum_counterexample :
    ((getDocentesWithDesignaciones [mkDsg 1 "D1" "" "" ""] [] []).docentes.map
        (fun p => p.totalDesignaciones)).sum = 0 ∧
      (getDocentesWithDesignaciones [mkDsg 1 "D1" "" "" ""] [] []).totalDesignaciones = 1 ∧
      ([mkDsg 1 "D1" "" "" ""] : List RawDesignacion).length = 1 :=
  ⟨by decide, by decide, rfl⟩

/-- Claim C4, amended. `get_docentes_with_designaciones` returns profiles
sorted ascending by person name, and the sum of `total_designaciones` over
all profiles equals the flat count of input designation records *whose
trimmed person name is non-empty* (records with a blank name are dropped by
the grouping). -/
theorem docentes_sorted_and_sum (dr : List RawDesignacion)
    (mr : List RawAssignment) (hr : List RawHuayca) :
    ((getDocentesWithDesignaciones dr mr hr).docentes).Sorted profileLe ∧
      (((getDocentesWithDesignaciones dr mr hr).docentes).map
        (fun p => p.totalDesignaciones)).sum =
        (dr.filter (fun r => pyStrip r.apellidoYNombre ≠ "")).length := by
  constructor
  · rw [getDocentes_docentes_eq]
    exact @List.sorted_insertionSort DocenteProfile profileLe _
      ⟨fun a b => strLe_total _ _⟩ ⟨fun a b c hab hbc => strLe_trans hab hbc⟩ _
  · rw [getDocentes_docentes_eq]
    set ds := (getDesignacionesWithMaterias dr mr hr).designaciones with hds
    set l := ds.filter (fun d => docenteKey d ≠ "") with hl
    set names := firstSeen (l.map docenteKey) with hnames
    have hperm := List.perm_insertionSort profileLe
      (names.map (fun k => mkDocenteProfile (ds.filter (fun d => docenteKey d = k))))
    rw [List.Perm.sum_eq (hperm.map (fun p => p.totalDesignaciones))]
    rw [List.map_map]
    have hterms : names.map ((fun p => p.totalDesignaciones) ∘ fun k =>
        mkDocenteProfile (ds.filter (fun d => docenteKey d = k))) =
        names.map (fun k => (l.filter (fun d => docenteKey d = k)).length) := by
      refine List.map_congr_left (fun k hk => ?_)
      have hkne : k ≠ "" := by
        obtain ⟨d, hd, hdk⟩ := List.mem_map.mp ((mem_firstSeen _ _).mp hk)
        have hdne := (List.mem_filter.mp hd).2
        exact hdk ▸ (by simpa using hdne)
      show (ds.filter (fun d => docenteKey d = k)).length =
        (l.filter (fun d => docenteKey d = k)).length
      rw [hl, List.filter_filter]
      congr 1
      refine List.filter_congr (fun d _ => ?_)
      by_cases hc : docenteKey d = k
      · simp [hc, hkne]
      · simp [hc]
    rw [hterms, sum_group_lengths docenteKey l names (nodup_firstSeen _)
      (fun x hx => (mem_firstSeen _ _).mpr (List.mem_map.mpr ⟨x, hx, rfl⟩))]
    rw [hl, hds, getDesignaciones_designaciones_eq,
      ← List.countP_eq_length_filter, ← List.countP_eq_length_filter, List.countP_map]
    rfl

/-- Claim C5. `get_designaciones_by_departamento` never produces an empty
label: a designation whose stripped department is empty goes under the
sentinel `'SIN DEPARTAMENTO'`, every designation of the input appears in
exactly one department group, and each group is sorted ascending by
`d_desig`. -/
theorem designaciones_by_departamento_spec (dr : List RawDesignacion)
    (mr : List RawAssignment) (hr : List RawHuayca) :
    ("" ∉ (getDesignacionesByDepartamento dr mr hr).map Prod.fst) ∧
      (∀ d ∈ (getDesignacionesWithMaterias dr mr hr).designaciones,
        pyStrip d.departamento = "" →
          ∃ g, ("SIN DEPARTAMENTO", g) ∈ getDesignacionesByDepartamento dr mr hr ∧ d ∈ g) ∧
      (∀ d ∈ (getDesignacionesWithMaterias dr mr hr).designaciones,
        (getDesignacionesByDepartamento dr mr hr).countP (fun p => decide (d ∈ p.2)) = 1) ∧
      (∀ p ∈ getDesignacionesByDepartamento dr mr hr, p.2.Sorted desigLe) := by
  have hm := getByDept_eq dr mr hr
  set ds := (getDesignacionesWithMaterias dr mr hr).designaciones with hds
  set keys := firstSeen (ds.map deptKey) with hkeys
  set grouped := keys.map (fun k =>
    (k, List.insertionSort desigLe (ds.filter (fun d => deptKey d = k)))) with hgrouped
  have hperm : (getDesignacionesByDepartamento dr mr hr).Perm grouped := by
    rw [hm]
    exact List.perm_insertionSort _ _
  have hfst : grouped.map Prod.fst = keys := by
    rw [hgrouped, List.map_map]
    simp [Function.comp_def]
  refine ⟨?_, ?_, ?_, ?_⟩
  · intro hmem
    have h1 : ("" : String) ∈ grouped.map Prod.fst := ((hperm.map Prod.fst).mem_iff).mp hmem
    rw [hfst] at h1
    obtain ⟨d, _, hdk⟩ := List.mem_map.mp ((mem_firstSeen _ _).mp h1)
    exact deptKey_ne_empty d hdk
  · intro d hd hdep
    have hk : deptKey d = "SIN DEPARTAMENTO" := by
      unfold deptKey
      rw [if_pos hdep]
    have hkin : ("SIN DEPARTAMENTO" : String) ∈ keys := by
      rw [← hk]
      exact (mem_firstSeen _ _).mpr (List.mem_map.mpr ⟨d, hd, rfl⟩)
    refine ⟨List.insertionSort desigLe
      (ds.filter (fun x => deptKey x = "SIN DEPARTAMENTO")), ?_, ?_⟩
    · apply (hperm.mem_iff).mpr
      rw [hgrouped]
      exact List.mem_map.mpr ⟨"SIN DEPARTAMENTO", hkin, rfl⟩
    · apply ((List.perm_insertionSort desigLe _).mem_iff).mpr
      exact List.mem_filter.mpr ⟨hd, by simp [hk]⟩
  · intro d hd
    rw [List.Perm.countP_eq _ hperm, hgrouped, List.countP_map]
    refine countP_eq_one_of_nodup keys _ (deptKey d) (nodup_firstSeen _)
      ((mem_firstSeen _ _).mpr (List.mem_map.mpr ⟨d, hd, rfl⟩)) (fun k hk => ?_)
    simp only [Function.comp_apply, decide_eq_true_eq]
    constructor
    · intro hdin
      have h1 := ((List.perm_insertionSort desigLe _).mem_iff).mp hdin
      have h2 := (List.mem_filter.mp h1).2
      simpa [eq_comm] using h2
    · intro hkd
      apply ((List.perm_insertionSort desigLe _).mem_iff).mpr
      exact List.mem_filter.mpr ⟨hd, by simp [hkd]⟩
  · intro p hp
    have hpg : p ∈ grouped := (hperm.mem_iff).mp hp
    rw [hgrouped] at hpg
    obtain ⟨k, _, hk⟩ := List.mem_map.mp hpg
    rw [← hk]
    exact @List.sorted_insertionSort _ desigLe _ ⟨fun a b => strLe_total _ _⟩
      ⟨fun a b c hab hbc => strLe_trans hab hbc⟩ _

/-- Witness for the department-grouping claim on a two-row input, one row
with department `"Math"` and one with a whitespace-only department that
lands under the sentinel label. -/
theorem designaciones_by_departamento_spec_witness :
    ("" ∉ (getDesignacionesByDepartamento
        [mkDsg 1 "D2" "N1" "" "Math", mkDsg 2 "D1" "N2" "" " "] [] []).map Prod.fst) ∧
      (∃ g, ("SIN DEPARTAMENTO", g) ∈ getDesignacionesByDepartamento
          [mkDsg 1 "D2" "N1" "" "Math", mkDsg 2 "D1" "N2" "" " "] [] [] ∧
        convertDesignacionRecord (mkDsg 2 "D1" "N2" "" " ") ∈ g) ∧
      ((getDesignacionesByDepartamento
          [mkDsg 1 "D2" "N1" "" "Math", mkDsg 2 "D1" "N2" "" " "] [] []).countP
        (fun p => decide (convertDesignacionRecord (mkDsg 2 "D1" "N2" "" " ") ∈ p.2)) = 1) ∧
      (([convertDesignacionRecord (mkDsg 1 "D2" "N1" "" "Math")] :
          List DocenteDesignacion).Sorted desigLe) :=
  ⟨(designaciones_by_departamento_spec
      [mkDsg 1 "D2" "N1" "" "Math", mkDsg 2 "D1" "N2" "" " "] [] []).1,
   (designaciones_by_departamento_spec
      [mkDsg 1 "D2" "N1" "" "Math", mkDsg 2 "D1" "N2" "" " "] [] []).2.1
      (convertDesignacionRecord (mkDsg 2 "D1" "N2" "" " ")) (by decide) (by decide),
   (designaciones_by_departamento_spec
      [mkDsg 1 "D2" "N1" "" "Math", mkDsg 2 "D1" "N2" "" " "] [] []).2.2.1
      (convertDesignacionRecord (mkDsg 2 "D1" "N2" "" " ")) (by decide),
   (designaciones_by_departamento_spec
      [mkDsg 1 "D2" "N1" "" "Math", mkDsg 2 "D1" "N2" "" " "] [] []).2.2.2
      ("Math", [convertDesignacionRecord (mkDsg 1 "D2" "N1" "" "Math")]) (by decide)⟩
